import Mathlib

/-!
Verification development for the SEO backend.

This file shallowly embeds the parts of the Python code base that the
specification talks about: the page scorer (`backend/scorer/scorer.py`),
the keyword opportunity engine (`backend/keyword_engine/engine.py`),
the analyzer (`backend/analyzer/analyzer.py`), the sitemap parser
(`backend/crawler/sitemap.py`), the robots.txt checker
(`backend/crawler/robots.py`), the per-domain rate limiter
(`backend/crawler/rate_limiter.py`) and the main crawl loop
(`backend/crawler/crawler.py`).

Machine floats are idealized as exact rationals (`ℚ`) where the code only
does field arithmetic and comparisons, and as reals (`ℝ`) where `math.log1p`
is involved.  Python's `round` (banker's rounding: round half to even) is
modelled exactly by `pyRound` below.  External libraries (BeautifulSoup,
trafilatura, httpx, the robots parser) appear as explicit oracle
parameters, so every theorem quantifies over their behaviour.
-/

set_option linter.unusedSectionVars false

/-- Python's built-in `round` to an integer: round half to even.
For a non-tie this is ordinary rounding to the nearest integer; at a tie
(`fract x = 1/2`) the result is the even one of the two neighbours, which
equals `2 * round (x / 2)`. -/
def pyRound {α : Type} [LinearOrderedField α] [FloorRing α] [DecidableEq α] (x : α) : ℤ :=
  if Int.fract x = 1 / 2 then 2 * round (x / 2) else round x

section PyRound

variable {α : Type} [LinearOrderedField α] [FloorRing α] [DecidableEq α]

theorem round_mono_of_le {x y : α} (h : x ≤ y) : round x ≤ round y := by
  rw [round_eq, round_eq]
  exact Int.floor_mono (by linarith)

theorem pyRound_tie_lb {x : α} (hx : Int.fract x = 1 / 2) : ⌊x⌋ ≤ pyRound x := by
  unfold pyRound
  rw [if_pos hx]
  have hfl : x = (⌊x⌋ : α) + 1 / 2 := by
    have h := Int.floor_add_fract x
    rw [hx] at h
    linarith
  have h2 := abs_sub_round (x / 2)
  rw [abs_sub_le_iff] at h2
  have hcast : ((⌊x⌋ - 1 : ℤ) : α) < ((2 * round (x / 2) : ℤ) : α) := by
    push_cast
    nlinarith [h2.1, h2.2]
  have := Int.cast_lt.mp hcast
  omega

theorem pyRound_tie_ub {x : α} (hx : Int.fract x = 1 / 2) : pyRound x ≤ ⌊x⌋ + 1 := by
  unfold pyRound
  rw [if_pos hx]
  have hfl : x = (⌊x⌋ : α) + 1 / 2 := by
    have h := Int.floor_add_fract x
    rw [hx] at h
    linarith
  have h2 := abs_sub_round (x / 2)
  rw [abs_sub_le_iff] at h2
  have hcast : ((2 * round (x / 2) : ℤ) : α) < ((⌊x⌋ + 2 : ℤ) : α) := by
    push_cast
    nlinarith [h2.1, h2.2]
  have := Int.cast_lt.mp hcast
  omega

theorem pyRound_mono {x y : α} (h : x ≤ y) : pyRound x ≤ pyRound y := by
  rcases eq_or_lt_of_le h with rfl | hlt
  · exact le_refl _
  by_cases hx : Int.fract x = 1 / 2 <;> by_cases hy : Int.fract y = 1 / 2
  · -- both ties: the floors differ by at least one
    have hxe : x = (⌊x⌋ : α) + 1 / 2 := by
      have h := Int.floor_add_fract x; rw [hx] at h; linarith
    have hye : y = (⌊y⌋ : α) + 1 / 2 := by
      have h := Int.floor_add_fract y; rw [hy] at h; linarith
    have hfl : ⌊x⌋ < ⌊y⌋ := by
      have : ((⌊x⌋ : ℤ) : α) < ((⌊y⌋ : ℤ) : α) := by linarith
      exact_mod_cast this
    calc pyRound x ≤ ⌊x⌋ + 1 := pyRound_tie_ub hx
      _ ≤ ⌊y⌋ := by omega
      _ ≤ pyRound y := pyRound_tie_lb hy
  · -- x tie, y not
    have hle : pyRound x ≤ ⌊x⌋ + 1 := pyRound_tie_ub hx
    have hxe : x = (⌊x⌋ : α) + 1 / 2 := by
      have h := Int.floor_add_fract x; rw [hx] at h; linarith
    have hry : pyRound y = round y := by unfold pyRound; rw [if_neg hy]
    have : (⌊x⌋ + 1 : ℤ) ≤ round y := by
      rw [round_eq]
      refine Int.le_floor.mpr ?_
      push_cast
      linarith
    omega
  · -- x not a tie, y tie
    have hrx : pyRound x = round x := by unfold pyRound; rw [if_neg hx]
    have hge : ⌊y⌋ ≤ pyRound y := pyRound_tie_lb hy
    have hye : y = (⌊y⌋ : α) + 1 / 2 := by
      have h := Int.floor_add_fract y; rw [hy] at h; linarith
    have : round x ≤ ⌊y⌋ := by
      rw [round_eq]
      have : x + 1 / 2 < ((⌊y⌋ + 1 : ℤ) : α) := by push_cast; linarith
      have := Int.floor_lt.mpr this
      omega
    omega
  · have hrx : pyRound x = round x := by unfold pyRound; rw [if_neg hx]
    have hry : pyRound y = round y := by unfold pyRound; rw [if_neg hy]
    rw [hrx, hry]
    exact round_mono_of_le h

theorem pyRound_intCast (n : ℤ) : pyRound ((n : α)) = n := by
  unfold pyRound
  rw [if_neg]
  · exact round_intCast n
  · rw [Int.fract_intCast]
    norm_num

theorem pyRound_nonneg {x : α} (hx : 0 ≤ x) : 0 ≤ pyRound x := by
  have h : pyRound ((0 : ℤ) : α) ≤ pyRound x := pyRound_mono (by exact_mod_cast hx)
  rwa [pyRound_intCast] at h

theorem pyRound_le_intCast {x : α} {n : ℤ} (hx : x ≤ (n : α)) : pyRound x ≤ n := by
  have h := pyRound_mono hx
  rwa [pyRound_intCast] at h

end PyRound

/-- `clamp` from `backend/scorer/scorer.py`: `max(min_val, min(max_val, value))`.
The Python defaults are `min_val = 0.0`, `max_val = 100.0`; call sites pass
them explicitly here. -/
def clamp (value min_val max_val : ℚ) : ℚ :=
  max min_val (min max_val value)

theorem clamp_nonneg (v : ℚ) : 0 ≤ clamp v 0 100 :=
  le_max_left _ _

theorem clamp_le_100 (v : ℚ) : clamp v 0 100 ≤ 100 :=
  max_le (by norm_num) (min_le_left _ _)

theorem clamp_of_mem {v : ℚ} (h0 : 0 ≤ v) (h100 : v ≤ 100) : clamp v 0 100 = v := by
  unfold clamp
  rw [min_eq_right h100, max_eq_right h0]

/-! ## The analyzer's page container (`AnalyzedPage.__init__`, analyzer.py lines 52-117)

Python `int` fields become `ℤ` (or `ℕ` where the code only ever stores a
`len(...)`), `float` fields become `ℚ`, optional strings become
`Option String`, dicts become association lists.  The default value of every
field is the one assigned in `__init__`. -/

structure AnalyzedPage where
  url : String := ""
  canonical_url : Option String := none
  status_code : ℤ := 0
  title : Option String := none
  title_length : ℕ := 0
  meta_description : Option String := none
  meta_description_length : ℕ := 0
  meta_robots : Option String := none
  canonical_tag : Option String := none
  is_indexable : Bool := true
  is_canonical : Bool := true
  h1_tags : List String := []
  h2_tags : List String := []
  h3_tags : List String := []
  h4_tags : List String := []
  h5_tags : List String := []
  h6_tags : List String := []
  word_count : ℕ := 0
  content_text : String := ""
  reading_time_seconds : ℕ := 0
  text_html_ratio : ℚ := 0
  language : Option String := none
  load_time_ms : ℤ := 0
  page_size_bytes : ℤ := 0
  is_https : Bool := false
  has_viewport_meta : Bool := false
  has_schema_markup : Bool := false
  schema_types : List String := []
  has_open_graph : Bool := false
  has_twitter_card : Bool := false
  has_hreflang : Bool := false
  total_images : ℕ := 0
  images_missing_alt : ℕ := 0
  images_with_alt : ℕ := 0
  internal_links_count : ℕ := 0
  external_links_count : ℕ := 0
  keyword_frequencies : List (String × ℕ) := []
  raw_html : String := ""
  headers : List (String × String) := []
  deriving DecidableEq

/-- Python truthiness of an optional string: `None` and `""` are falsy. -/
def truthyStr : Option String → Bool
  | none => false
  | some s => s ≠ ""

/-! ## The scorer (`backend/scorer/scorer.py`)

Scoring weights are the defaults of `core/config.py` (`Settings`), which the
spec also states. -/

def SCORE_TECHNICAL_WEIGHT : ℚ := 35 / 100
def SCORE_CONTENT_WEIGHT : ℚ := 30 / 100
def SCORE_AUTHORITY_WEIGHT : ℚ := 20 / 100
def SCORE_LINKING_WEIGHT : ℚ := 10 / 100
def SCORE_AI_VISIBILITY_WEIGHT : ℚ := 5 / 100

/-- `SEOScorer._score_technical` (scorer.py lines 92-190), the returned score
before clamping (the breakdown dict carries no score information and is not
modelled). -/
def score_technical (page : AnalyzedPage) : ℚ :=
  let https_pts : ℚ := if page.is_https then 10 else 0
  let status_pts : ℚ :=
    if page.status_code = 200 then 10
    else if 200 < page.status_code ∧ page.status_code < 400 then 5 else 0
  let index_pts : ℚ := if page.is_indexable then 15 else 0
  let viewport_pts : ℚ := if page.has_viewport_meta then 5 else 0
  let lt_pts : ℚ :=
    if page.load_time_ms ≤ 1000 then 10
    else if page.load_time_ms ≤ 2000 then 7
    else if page.load_time_ms ≤ 3000 then 5
    else if page.load_time_ms ≤ 5000 then 2 else 0
  let size_kb : ℚ := (page.page_size_bytes : ℚ) / 1024
  let size_pts : ℚ :=
    if size_kb < 500 then 10
    else if size_kb < 1024 then 7
    else if size_kb < 2048 then 3 else 0
  let canonical_pts : ℚ := if truthyStr page.canonical_tag then 5 else 0
  let schema_pts : ℚ := if page.has_schema_markup then 10 else 0
  let og_pts : ℚ := if page.has_open_graph then 5 else 0
  let tc_pts : ℚ := if page.has_twitter_card then 5 else 0
  let hl_pts : ℚ := if page.has_hreflang then 5 else 0
  (https_pts + status_pts + index_pts + viewport_pts + lt_pts + size_pts +
    canonical_pts + schema_pts + og_pts + tc_pts + hl_pts) / 90 * 100

/-- `SEOScorer._score_content` (scorer.py lines 192-299), pre-clamp value. -/
def score_content (page : AnalyzedPage) : ℚ :=
  let title_pts : ℚ :=
    if truthyStr page.title then
      if 50 ≤ page.title_length ∧ page.title_length ≤ 60 then 20
      else if 30 ≤ page.title_length ∧ page.title_length ≤ 70 then 15
      else if 0 < page.title_length then 8 else 0
    else 0
  let desc_pts : ℚ :=
    if truthyStr page.meta_description then
      if 150 ≤ page.meta_description_length ∧ page.meta_description_length ≤ 160 then 15
      else if 100 ≤ page.meta_description_length ∧ page.meta_description_length ≤ 180 then 10
      else 5
    else 0
  let h1_pts : ℚ :=
    if page.h1_tags.length = 1 then 15
    else if 1 < page.h1_tags.length then 8 else 0
  let h2_pts : ℚ :=
    if 2 ≤ page.h2_tags.length then 5
    else if page.h2_tags.length = 1 then 2 else 0
  let wc_pts : ℚ :=
    if 1500 ≤ page.word_count then 20
    else if 800 ≤ page.word_count then 15
    else if 400 ≤ page.word_count then 10
    else if 200 ≤ page.word_count then 5 else 0
  let alt_pts : ℚ :=
    if 0 < page.total_images then
      ((pyRound ((page.images_with_alt : ℚ) / (page.total_images : ℚ) * 10) : ℤ) : ℚ)
    else 10
  let ratio_pts : ℚ :=
    if 3 / 10 ≤ page.text_html_ratio then 10
    else if 15 / 100 ≤ page.text_html_ratio then 5 else 0
  (title_pts + desc_pts + h1_pts + h2_pts + wc_pts + alt_pts + ratio_pts) / 95 * 100

/-- `SEOScorer._score_linking` (scorer.py lines 301-348); not normalized. -/
def score_linking (page : AnalyzedPage) (inbound_count : ℤ) : ℚ :=
  let out_pts : ℚ :=
    if 5 ≤ page.internal_links_count then 30
    else if 2 ≤ page.internal_links_count then 20
    else if 1 ≤ page.internal_links_count then 10 else 0
  let ratio_pts : ℚ :=
    if 1 ≤ page.internal_links_count ∧ page.internal_links_count ≤ 50 then 20
    else if 100 < page.internal_links_count then 5 else 0
  let in_pts : ℚ :=
    if 10 ≤ inbound_count then 50
    else if 5 ≤ inbound_count then 35
    else if 2 ≤ inbound_count then 20
    else if 1 ≤ inbound_count then 10 else 0
  out_pts + ratio_pts + in_pts

/-- `SEOScorer._score_authority` (scorer.py lines 350-367). -/
def score_authority (inbound_link_count : ℤ) : ℚ :=
  if 50 ≤ inbound_link_count then 90
  else if 20 ≤ inbound_link_count then 75
  else if 10 ≤ inbound_link_count then 60
  else if 5 ≤ inbound_link_count then 45
  else if 2 ≤ inbound_link_count then 30
  else if 1 ≤ inbound_link_count then 15
  else 5

def high_value_schemas : List String := ["FAQPage", "HowTo", "Article", "Product", "LocalBusiness"]

/-- `SEOScorer._score_ai_visibility` (scorer.py lines 369-398).
`len(set(page.schema_types) & high_value_schemas)` is the number of distinct
schema types that are high-value. -/
def score_ai_visibility (page : AnalyzedPage) : ℚ :=
  let schema : ℚ :=
    if page.has_schema_markup then
      40 + (((page.schema_types.filter (fun t => t ∈ high_value_schemas)).dedup.length : ℚ)) * 10
    else 0
  let h1 : ℚ := if page.h1_tags.length = 1 then 15 else 0
  let h2 : ℚ := if 2 ≤ page.h2_tags.length then 15 else 0
  let og : ℚ := if page.has_open_graph then 10 else 0
  let wc : ℚ := if 1000 ≤ page.word_count then 10 else 0
  clamp (schema + h1 + h2 + og + wc) 0 100

/-- Field-for-field image of the Python `PageScore` dataclass (scores only;
breakdown dicts carry no score information). -/
structure PageScore where
  overall_score : ℚ := 0
  technical_score : ℚ := 0
  content_score : ℚ := 0
  authority_score : ℚ := 0
  linking_score : ℚ := 0
  ai_visibility_score : ℚ := 0
  deriving DecidableEq

/-- `SEOScorer.score_page` (scorer.py lines 63-90). -/
def score_page (page : AnalyzedPage) (inbound_link_count : ℤ) : PageScore :=
  let technical := clamp (score_technical page) 0 100
  let content := clamp (score_content page) 0 100
  let authority := clamp (score_authority inbound_link_count) 0 100
  let linking := clamp (score_linking page inbound_link_count) 0 100
  let ai := clamp (score_ai_visibility page) 0 100
  { technical_score := technical
    content_score := content
    authority_score := authority
    linking_score := linking
    ai_visibility_score := ai
    overall_score := clamp
      (technical * SCORE_TECHNICAL_WEIGHT + content * SCORE_CONTENT_WEIGHT +
        authority * SCORE_AUTHORITY_WEIGHT + linking * SCORE_LINKING_WEIGHT +
        ai * SCORE_AI_VISIBILITY_WEIGHT) 0 100 }

/-- Claim C1: for every analyzed page and every inbound link count,
`score_page` returns five dimension scores each in `[0, 100]` and an overall
score equal to `0.35·technical + 0.30·content + 0.20·authority +
0.10·linking + 0.05·ai_visibility` within `±0.01`, itself in `[0, 100]`
(in the exact-arithmetic model the weighted identity holds exactly). -/
theorem score_page_bounds (page : AnalyzedPage) (inbound_link_count : ℤ) :
    (0 ≤ (score_page page inbound_link_count).technical_score ∧
      (score_page page inbound_link_count).technical_score ≤ 100) ∧
    (0 ≤ (score_page page inbound_link_count).content_score ∧
      (score_page page inbound_link_count).content_score ≤ 100) ∧
    (0 ≤ (score_page page inbound_link_count).authority_score ∧
      (score_page page inbound_link_count).authority_score ≤ 100) ∧
    (0 ≤ (score_page page inbound_link_count).linking_score ∧
      (score_page page inbound_link_count).linking_score ≤ 100) ∧
    (0 ≤ (score_page page inbound_link_count).ai_visibility_score ∧
      (score_page page inbound_link_count).ai_visibility_score ≤ 100) ∧
    |(score_page page inbound_link_count).overall_score -
        (35 / 100 * (score_page page inbound_link_count).technical_score +
          30 / 100 * (score_page page inbound_link_count).content_score +
          20 / 100 * (score_page page inbound_link_count).authority_score +
          10 / 100 * (score_page page inbound_link_count).linking_score +
          5 / 100 * (score_page page inbound_link_count).ai_visibility_score)| ≤ 1 / 100 ∧
    0 ≤ (score_page page inbound_link_count).overall_score ∧
    (score_page page inbound_link_count).overall_score ≤ 100 := by
  have ht0 := clamp_nonneg (score_technical page)
  have ht1 := clamp_le_100 (score_technical page)
  have hc0 := clamp_nonneg (score_content page)
  have hc1 := clamp_le_100 (score_content page)
  have ha0 := clamp_nonneg (score_authority inbound_link_count)
  have ha1 := clamp_le_100 (score_authority inbound_link_count)
  have hl0 := clamp_nonneg (score_linking page inbound_link_count)
  have hl1 := clamp_le_100 (score_linking page inbound_link_count)
  have hai0 := clamp_nonneg (score_ai_visibility page)
  have hai1 := clamp_le_100 (score_ai_visibility page)
  set T := clamp (score_technical page) 0 100 with hT
  set C := clamp (score_content page) 0 100 with hC
  set A := clamp (score_authority inbound_link_count) 0 100 with hA
  set L := clamp (score_linking page inbound_link_count) 0 100 with hL
  set V := clamp (score_ai_visibility page) 0 100 with hV
  have hsum0 : 0 ≤ T * SCORE_TECHNICAL_WEIGHT + C * SCORE_CONTENT_WEIGHT +
      A * SCORE_AUTHORITY_WEIGHT + L * SCORE_LINKING_WEIGHT + V * SCORE_AI_VISIBILITY_WEIGHT := by
    unfold SCORE_TECHNICAL_WEIGHT SCORE_CONTENT_WEIGHT SCORE_AUTHORITY_WEIGHT
      SCORE_LINKING_WEIGHT SCORE_AI_VISIBILITY_WEIGHT
    linarith
  have hsum1 : T * SCORE_TECHNICAL_WEIGHT + C * SCORE_CONTENT_WEIGHT +
      A * SCORE_AUTHORITY_WEIGHT + L * SCORE_LINKING_WEIGHT + V * SCORE_AI_VISIBILITY_WEIGHT ≤ 100 := by
    unfold SCORE_TECHNICAL_WEIGHT SCORE_CONTENT_WEIGHT SCORE_AUTHORITY_WEIGHT
      SCORE_LINKING_WEIGHT SCORE_AI_VISIBILITY_WEIGHT
    linarith
  have hscore : score_page page inbound_link_count =
      { technical_score := T, content_score := C, authority_score := A,
        linking_score := L, ai_visibility_score := V,
        overall_score := clamp (T * SCORE_TECHNICAL_WEIGHT + C * SCORE_CONTENT_WEIGHT +
          A * SCORE_AUTHORITY_WEIGHT + L * SCORE_LINKING_WEIGHT +
          V * SCORE_AI_VISIBILITY_WEIGHT) 0 100 } := rfl
  rw [hscore]
  simp only []
  rw [clamp_of_mem hsum0 hsum1]
  refine ⟨⟨ht0, ht1⟩, ⟨hc0, hc1⟩, ⟨ha0, ha1⟩, ⟨hl0, hl1⟩, ⟨hai0, hai1⟩, ?_, by linarith, by linarith⟩
  have : T * SCORE_TECHNICAL_WEIGHT + C * SCORE_CONTENT_WEIGHT +
      A * SCORE_AUTHORITY_WEIGHT + L * SCORE_LINKING_WEIGHT + V * SCORE_AI_VISIBILITY_WEIGHT -
      (35 / 100 * T + 30 / 100 * C + 20 / 100 * A + 10 / 100 * L + 5 / 100 * V) = 0 := by
    unfold SCORE_TECHNICAL_WEIGHT SCORE_CONTENT_WEIGHT SCORE_AUTHORITY_WEIGHT
      SCORE_LINKING_WEIGHT SCORE_AI_VISIBILITY_WEIGHT
    ring
  rw [this]
  norm_num

/-! ## The keyword opportunity engine (`backend/keyword_engine/engine.py`)

`compute_opportunity_score` (engine.py lines 62-87).  `volume` and
`rank_gap` are Python `int`s, `ctr` and `difficulty` floats; `math.log1p x`
is `Real.log (1 + x)`, and `round(normalized, 2)` is
`pyRound (100 * normalized) / 100`. -/

noncomputable def compute_opportunity_score
    (volume : ℤ) (ctr : ℝ) (rank_gap : ℤ) (difficulty : ℝ) : ℝ :=
  if volume ≤ 0 ∨ ctr ≤ 0 ∨ rank_gap ≤ 0 then 0
  else
    ((pyRound (100 * min (100 : ℝ)
        (Real.log (1 + ((volume : ℝ) * ctr * (rank_gap : ℝ)) /
          (if difficulty ≤ 0 then 1 else difficulty)) * 8)) : ℤ) : ℝ) / 100

/-- The normalization applied to a raw score: `round(min(100, log1p(raw)*8), 2)`. -/
noncomputable def oppNormalize (raw : ℝ) : ℝ :=
  ((pyRound (100 * min (100 : ℝ) (Real.log (1 + raw) * 8)) : ℤ) : ℝ) / 100

theorem compute_opportunity_score_eq (volume : ℤ) (ctr : ℝ) (rank_gap : ℤ) (difficulty : ℝ) :
    compute_opportunity_score volume ctr rank_gap difficulty =
      if volume ≤ 0 ∨ ctr ≤ 0 ∨ rank_gap ≤ 0 then 0
      else oppNormalize (((volume : ℝ) * ctr * (rank_gap : ℝ)) /
        (if difficulty ≤ 0 then 1 else difficulty)) := rfl

theorem oppNormalize_nonneg {raw : ℝ} (h : 0 ≤ raw) : 0 ≤ oppNormalize raw := by
  unfold oppNormalize
  have hlog : 0 ≤ Real.log (1 + raw) := Real.log_nonneg (by linarith)
  have hmin : 0 ≤ min (100 : ℝ) (Real.log (1 + raw) * 8) := by
    have : 0 ≤ Real.log (1 + raw) * 8 := by linarith
    positivity
  have h0 : (0 : ℤ) ≤ pyRound (100 * min (100 : ℝ) (Real.log (1 + raw) * 8)) :=
    pyRound_nonneg (by linarith)
  have : (0 : ℝ) ≤ ((pyRound (100 * min (100 : ℝ) (Real.log (1 + raw) * 8)) : ℤ) : ℝ) := by
    exact_mod_cast h0
  linarith

theorem oppNormalize_le_100 (raw : ℝ) : oppNormalize raw ≤ 100 := by
  unfold oppNormalize
  have hmin : min (100 : ℝ) (Real.log (1 + raw) * 8) ≤ 100 := min_le_left _ _
  have h1 : pyRound (100 * min (100 : ℝ) (Real.log (1 + raw) * 8)) ≤ (10000 : ℤ) :=
    pyRound_le_intCast (by push_cast; linarith)
  have : ((pyRound (100 * min (100 : ℝ) (Real.log (1 + raw) * 8)) : ℤ) : ℝ) ≤ 10000 := by
    exact_mod_cast h1
  linarith

theorem oppNormalize_mono {x y : ℝ} (hx : 0 ≤ x) (hxy : x ≤ y) :
    oppNormalize x ≤ oppNormalize y := by
  unfold oppNormalize
  have hlog : Real.log (1 + x) ≤ Real.log (1 + y) :=
    Real.log_le_log (by linarith) (by linarith)
  have hmin : min (100 : ℝ) (Real.log (1 + x) * 8) ≤ min (100 : ℝ) (Real.log (1 + y) * 8) :=
    min_le_min le_rfl (by linarith)
  have h := pyRound_mono (show 100 * min (100 : ℝ) (Real.log (1 + x) * 8) ≤
      100 * min (100 : ℝ) (Real.log (1 + y) * 8) by linarith)
  have hc : ((pyRound (100 * min (100 : ℝ) (Real.log (1 + x) * 8)) : ℤ) : ℝ) ≤
      ((pyRound (100 * min (100 : ℝ) (Real.log (1 + y) * 8)) : ℤ) : ℝ) := by exact_mod_cast h
  linarith

/-- Helper: the opportunity score is never negative. -/
theorem oppScore_nonneg (volume : ℤ) (ctr : ℝ) (rank_gap : ℤ) (difficulty : ℝ) :
    0 ≤ compute_opportunity_score volume ctr rank_gap difficulty := by
  rw [compute_opportunity_score_eq]
  by_cases h : volume ≤ 0 ∨ ctr ≤ 0 ∨ rank_gap ≤ 0
  · rw [if_pos h]
  · rw [if_neg h]
    push_neg at h
    obtain ⟨hv, hc, hg⟩ := h
    have hd : 0 < (if difficulty ≤ 0 then (1 : ℝ) else difficulty) := by
      split_ifs with hd0
      · norm_num
      · exact lt_of_not_le hd0
    have hv' : (0 : ℝ) < (volume : ℝ) := by exact_mod_cast hv
    have hg' : (0 : ℝ) < (rank_gap : ℝ) := by exact_mod_cast hg
    exact oppNormalize_nonneg (le_of_lt (div_pos (mul_pos (mul_pos hv' hc) hg') hd))

/-- Claim C9: `compute_opportunity_score` is total: a difficulty `≤ 0` is
coerced to `1.0` before the division so the effective divisor is always
positive, and the result lies in `[0, 100]` for every combination of
inputs. -/
theorem compute_opportunity_score_total (volume : ℤ) (ctr : ℝ) (rank_gap : ℤ) (difficulty : ℝ) :
    0 < (if difficulty ≤ 0 then (1 : ℝ) else difficulty) ∧
    0 ≤ compute_opportunity_score volume ctr rank_gap difficulty ∧
    compute_opportunity_score volume ctr rank_gap difficulty ≤ 100 := by
  refine ⟨?_, oppScore_nonneg volume ctr rank_gap difficulty, ?_⟩
  · split_ifs with hd0
    · norm_num
    · exact lt_of_not_le hd0
  · rw [compute_opportunity_score_eq]
    by_cases h : volume ≤ 0 ∨ ctr ≤ 0 ∨ rank_gap ≤ 0
    · rw [if_pos h]
      norm_num
    · rw [if_neg h]
      exact oppNormalize_le_100 _

/-- Claim C6 (amended): the opportunity score is monotone non-decreasing in
volume, ctr and rank_gap, monotone non-increasing in difficulty over positive
difficulties, and equals 0 whenever at least one of volume, ctr, rank_gap is
`≤ 0` (the converse of the last point is false, see the counterexample). -/
theorem compute_opportunity_score_monotone :
    (∀ (ctr : ℝ) (rank_gap : ℤ) (difficulty : ℝ) (v v' : ℤ), v ≤ v' →
      compute_opportunity_score v ctr rank_gap difficulty ≤
        compute_opportunity_score v' ctr rank_gap difficulty) ∧
    (∀ (volume : ℤ) (rank_gap : ℤ) (difficulty : ℝ) (c c' : ℝ), c ≤ c' →
      compute_opportunity_score volume c rank_gap difficulty ≤
        compute_opportunity_score volume c' rank_gap difficulty) ∧
    (∀ (volume : ℤ) (ctr : ℝ) (difficulty : ℝ) (g g' : ℤ), g ≤ g' →
      compute_opportunity_score volume ctr g difficulty ≤
        compute_opportunity_score volume ctr g' difficulty) ∧
    (∀ (volume : ℤ) (ctr : ℝ) (rank_gap : ℤ) (d d' : ℝ), 0 < d → d ≤ d' →
      compute_opportunity_score volume ctr rank_gap d' ≤
        compute_opportunity_score volume ctr rank_gap d) ∧
    (∀ (volume : ℤ) (ctr : ℝ) (rank_gap : ℤ) (difficulty : ℝ),
      (volume ≤ 0 ∨ ctr ≤ 0 ∨ rank_gap ≤ 0) →
      compute_opportunity_score volume ctr rank_gap difficulty = 0) := by
  have hdiv : ∀ difficulty : ℝ, 0 < (if difficulty ≤ 0 then (1 : ℝ) else difficulty) := by
    intro difficulty
    split_ifs with hd0
    · norm_num
    · exact lt_of_not_le hd0
  refine ⟨?_, ?_, ?_, ?_, ?_⟩
  · intro c g d v v' hvv
    by_cases h1 : v ≤ 0 ∨ c ≤ 0 ∨ g ≤ 0
    · rw [compute_opportunity_score_eq, if_pos h1]
      exact oppScore_nonneg v' c g d
    · have h2 : ¬(v' ≤ 0 ∨ c ≤ 0 ∨ g ≤ 0) := by
        push_neg at h1 ⊢
        exact ⟨lt_of_lt_of_le h1.1 hvv, h1.2.1, h1.2.2⟩
      push_neg at h1
      obtain ⟨hv0, hc0, hg0⟩ := h1
      rw [compute_opportunity_score_eq, compute_opportunity_score_eq,
        if_neg (by push_neg; exact ⟨hv0, hc0, hg0⟩), if_neg h2]
      have hv0' : (0 : ℝ) < (v : ℝ) := by exact_mod_cast hv0
      have hg0' : (0 : ℝ) < (g : ℝ) := by exact_mod_cast hg0
      have hvv' : (v : ℝ) ≤ (v' : ℝ) := by exact_mod_cast hvv
      apply oppNormalize_mono
        (le_of_lt (div_pos (mul_pos (mul_pos hv0' hc0) hg0') (hdiv d)))
      apply (div_le_div_right (hdiv d)).mpr
      have h3 : (v : ℝ) * c ≤ (v' : ℝ) * c := mul_le_mul_of_nonneg_right hvv' (le_of_lt hc0)
      exact mul_le_mul_of_nonneg_right h3 (le_of_lt hg0')
  · intro v g d c c' hcc
    by_cases h1 : v ≤ 0 ∨ c ≤ 0 ∨ g ≤ 0
    · rw [compute_opportunity_score_eq, if_pos h1]
      exact oppScore_nonneg v c' g d
    · have h2 : ¬(v ≤ 0 ∨ c' ≤ 0 ∨ g ≤ 0) := by
        push_neg at h1 ⊢
        exact ⟨h1.1, lt_of_lt_of_le h1.2.1 hcc, h1.2.2⟩
      push_neg at h1
      obtain ⟨hv0, hc0, hg0⟩ := h1
      rw [compute_opportunity_score_eq, compute_opportunity_score_eq,
        if_neg (by push_neg; exact ⟨hv0, hc0, hg0⟩), if_neg h2]
      have hv0' : (0 : ℝ) < (v : ℝ) := by exact_mod_cast hv0
      have hg0' : (0 : ℝ) < (g : ℝ) := by exact_mod_cast hg0
      apply oppNormalize_mono
        (le_of_lt (div_pos (mul_pos (mul_pos hv0' hc0) hg0') (hdiv d)))
      apply (div_le_div_right (hdiv d)).mpr
      have h3 : (v : ℝ) * c ≤ (v : ℝ) * c' := mul_le_mul_of_nonneg_left hcc (le_of_lt hv0')
      exact mul_le_mul_of_nonneg_right h3 (le_of_lt hg0')
  · intro v c d g g' hgg
    by_cases h1 : v ≤ 0 ∨ c ≤ 0 ∨ g ≤ 0
    · rw [compute_opportunity_score_eq, if_pos h1]
      exact oppScore_nonneg v c g' d
    · have h2 : ¬(v ≤ 0 ∨ c ≤ 0 ∨ g' ≤ 0) := by
        push_neg at h1 ⊢
        exact ⟨h1.1, h1.2.1, lt_of_lt_of_le h1.2.2 hgg⟩
      push_neg at h1
      obtain ⟨hv0, hc0, hg0⟩ := h1
      rw [compute_opportunity_score_eq, compute_opportunity_score_eq,
        if_neg (by push_neg; exact ⟨hv0, hc0, hg0⟩), if_neg h2]
      have hv0' : (0 : ℝ) < (v : ℝ) := by exact_mod_cast hv0
      have hg0' : (0 : ℝ) < (g : ℝ) := by exact_mod_cast hg0
      have hgg' : (g : ℝ) ≤ (g' : ℝ) := by exact_mod_cast hgg
      apply oppNormalize_mono
        (le_of_lt (div_pos (mul_pos (mul_pos hv0' hc0) hg0') (hdiv d)))
      apply (div_le_div_right (hdiv d)).mpr
      exact mul_le_mul_of_nonneg_left hgg' (le_of_lt (mul_pos hv0' hc0))
  · intro v c g d d' hd hdd
    by_cases h1 : v ≤ 0 ∨ c ≤ 0 ∨ g ≤ 0
    · rw [compute_opportunity_score_eq, compute_opportunity_score_eq, if_pos h1, if_pos h1]
    · have hguard : ¬(v ≤ 0 ∨ c ≤ 0 ∨ g ≤ 0) := h1
      push_neg at h1
      obtain ⟨hv0, hc0, hg0⟩ := h1
      have hd' : 0 < d' := lt_of_lt_of_le hd hdd
      rw [compute_opportunity_score_eq, compute_opportunity_score_eq, if_neg hguard,
        if_neg (not_le.mpr hd'), if_neg hguard, if_neg (not_le.mpr hd)]
      have hv0' : (0 : ℝ) < (v : ℝ) := by exact_mod_cast hv0
      have hg0' : (0 : ℝ) < (g : ℝ) := by exact_mod_cast hg0
      have hnumpos : (0 : ℝ) < (v : ℝ) * c * (g : ℝ) := mul_pos (mul_pos hv0' hc0) hg0'
      apply oppNormalize_mono (le_of_lt (div_pos hnumpos hd'))
      exact div_le_div_of_nonneg_left (le_of_lt hnumpos) hd hdd
  · intro v c g d h
    rw [compute_opportunity_score_eq, if_pos h]

/-- Witness for C6: the monotonicity and zero conclusions at concrete inputs. -/
theorem compute_opportunity_score_monotone_witness :
    compute_opportunity_score 1 (1 / 2) 1 50 ≤ compute_opportunity_score 2 (1 / 2) 1 50 ∧
    compute_opportunity_score 1 (1 / 4) 1 50 ≤ compute_opportunity_score 1 (1 / 2) 1 50 ∧
    compute_opportunity_score 1 (1 / 2) 1 50 ≤ compute_opportunity_score 1 (1 / 2) 2 50 ∧
    compute_opportunity_score 1 (1 / 2) 1 60 ≤ compute_opportunity_score 1 (1 / 2) 1 50 ∧
    compute_opportunity_score 0 (1 / 2) 1 50 = 0 :=
  ⟨compute_opportunity_score_monotone.1 (1 / 2) 1 50 1 2 (by norm_num),
   compute_opportunity_score_monotone.2.1 1 1 50 (1 / 4) (1 / 2) (by norm_num),
   compute_opportunity_score_monotone.2.2.1 1 (1 / 2) 50 1 2 (by norm_num),
   compute_opportunity_score_monotone.2.2.2.1 1 (1 / 2) 1 50 60 (by norm_num) (by norm_num),
   compute_opportunity_score_monotone.2.2.2.2 0 (1 / 2) 1 50 (Or.inl (by norm_num))⟩

/-- Counterexample to C6 as stated: the score is 0 at `volume = 1`,
`ctr = 1/1000`, `rank_gap = 1`, `difficulty = 100` although all of volume,
ctr, rank_gap are strictly positive — `log1p(10⁻⁵)·8 < 0.005` rounds to
`0.00` — so "equals 0 only if one of them is ≤ 0" is false. -/
theorem compute_opportunity_score_zero_counterexample :
    compute_opportunity_score 1 (1 / 1000) 1 100 = 0 ∧
    (0 : ℤ) < 1 ∧ (0 : ℝ) < 1 / 1000 ∧ (0 : ℝ) < 100 := by
  refine ⟨?_, by norm_num, by norm_num, by norm_num⟩
  rw [compute_opportunity_score_eq,
    if_neg (by push_neg; norm_num), if_neg (by norm_num : ¬(100 : ℝ) ≤ 0)]
  have hraw : ((1 : ℤ) : ℝ) * (1 / 1000) * ((1 : ℤ) : ℝ) / 100 = 1 / 100000 := by
    norm_num
  rw [hraw]
  unfold oppNormalize
  have hlogpos : 0 < Real.log (1 + 1 / 100000) := Real.log_pos (by norm_num)
  have hlogsmall : Real.log (1 + 1 / 100000) ≤ 1 / 100000 := by
    have h := Real.log_le_sub_one_of_pos (show (0 : ℝ) < 1 + 1 / 100000 by norm_num)
    linarith
  have hmin : min (100 : ℝ) (Real.log (1 + 1 / 100000) * 8) =
      Real.log (1 + 1 / 100000) * 8 := min_eq_right (by linarith)
  rw [hmin]
  have ht0 : 0 < 100 * (Real.log (1 + 1 / 100000) * 8) := by positivity
  have ht1 : 100 * (Real.log (1 + 1 / 100000) * 8) < 1 / 2 := by linarith
  have hfloor : ⌊100 * (Real.log (1 + 1 / 100000) * 8)⌋ = 0 :=
    Int.floor_eq_zero_iff.mpr ⟨le_of_lt ht0, by linarith⟩
  have hfract : Int.fract (100 * (Real.log (1 + 1 / 100000) * 8)) ≠ 1 / 2 := by
    rw [Int.fract]
    rw [hfloor]
    push_cast
    intro hc
    rw [sub_zero] at hc
    linarith
  unfold pyRound
  rw [if_neg hfract, round_eq]
  have : ⌊100 * (Real.log (1 + 1 / 100000) * 8) + 1 / 2⌋ = 0 :=
    Int.floor_eq_zero_iff.mpr ⟨by linarith, by linarith⟩
  rw [this]
  norm_num

/-! ## String helpers mirroring Python's `str` methods (ASCII fragment)

The analyzer only feeds lowercased ASCII-ish text through these; Unicode
case-mapping and exotic whitespace are outside the model. -/

/-- The six characters Python's `str.split()` and `\s` treat as whitespace
in ASCII: space, tab, newline, carriage return, vertical tab, form feed. -/
def pyIsSpace (c : Char) : Bool :=
  c = ' ' ∨ c = '\t' ∨ c = '\n' ∨ c = '\r' ∨ c = Char.ofNat 11 ∨ c = Char.ofNat 12

/-- `str.split()` (no argument): split on runs of whitespace, no empty parts. -/
def splitWsAux : List Char → List Char → List String
  | [], acc => if acc = [] then [] else [String.mk acc.reverse]
  | c :: cs, acc =>
    if pyIsSpace c then
      if acc = [] then splitWsAux cs []
      else String.mk acc.reverse :: splitWsAux cs []
    else splitWsAux cs (c :: acc)

def pySplitWs (s : String) : List String :=
  splitWsAux s.toList []

/-- ASCII `str.lower()`. -/
def pyLowerChar (c : Char) : Char :=
  if 'A' ≤ c ∧ c ≤ 'Z' then Char.ofNat (c.toNat + 32) else c

def pyLower (s : String) : String :=
  String.mk (s.toList.map pyLowerChar)

/-- `str.startswith(p)`. -/
def pyStartsWith (s p : String) : Bool :=
  p.toList.isPrefixOf s.toList

/-- `str.strip("'-")`: drop leading and trailing apostrophes and hyphens. -/
def pyStripQuotesHyphens (s : String) : String :=
  String.mk (((s.toList.dropWhile fun c => c = '\'' ∨ c = '-').reverse.dropWhile
    fun c => c = '\'' ∨ c = '-').reverse)

/-! ## The crawler's per-page result (`CrawlResult`, crawler.py lines 31-53) -/

structure CrawlResult where
  url : String := ""
  final_url : String := ""
  status_code : ℤ := 0
  html : String := ""
  headers : List (String × String) := []
  load_time_ms : ℤ := 0
  page_size_bytes : ℤ := 0
  error : Option String := none
  deriving DecidableEq

/-- `CrawlResult.is_success`: `error is None and 200 <= status_code < 400`. -/
def CrawlResult.is_success (r : CrawlResult) : Bool :=
  r.error = none ∧ 200 ≤ r.status_code ∧ r.status_code < 400

/-! ## `SEOAnalyzer._extract_content` (analyzer.py lines 205-220)

`trafilatura.extract` and `soup.get_text()` are external libraries, passed
in as oracles `extract : String → Option String` (with `some ""` and `none`
both falsy, as in Python) and `get_text : String → String`.  Python's
`int((wc / 225) * 60)` truncates, which for the non-negative exact value is
`wc * 60 / 225` in `ℕ`; `round(x, 3)` is `pyRound (1000 * x) / 1000`. -/

def extract_content (extract : String → Option String) (get_text : String → String)
    (raw_html : String) (page : AnalyzedPage) : AnalyzedPage :=
  let page1 :=
    match extract raw_html with
    | some s =>
      if s ≠ "" then
        { page with
          content_text := s
          word_count := (pySplitWs s).length
          reading_time_seconds := max 1 ((pySplitWs s).length * 60 / 225) }
      else page
    | none => page
  if raw_html.length ≠ 0 then
    { page1 with
      text_html_ratio :=
        ((pyRound ((1000 : ℚ) * (((get_text raw_html).length : ℚ) / (raw_html.length : ℚ))) : ℤ) : ℚ) / 1000 }
  else page1

/-- Claim C4 (amended): when extraction yields non-empty text,
`reading_time_seconds = max(1, ⌊word_count / 225 · 60⌋)` (truncating `int()`,
not `round`); when extraction yields `None` or empty text — in particular for
empty or non-extractable HTML — `reading_time_seconds` keeps its prior value,
which is the default 0 for a freshly analyzed page, not 1. -/
theorem extract_content_reading_time (extract : String → Option String)
    (get_text : String → String) (raw_html : String) (page : AnalyzedPage) :
    (∀ s, extract raw_html = some s → s ≠ "" →
      (extract_content extract get_text raw_html page).reading_time_seconds =
        max 1 ((extract_content extract get_text raw_html page).word_count * 60 / 225) ∧
      (extract_content extract get_text raw_html page).word_count = (pySplitWs s).length) ∧
    (extract raw_html = none →
      (extract_content extract get_text raw_html page).reading_time_seconds =
        page.reading_time_seconds) ∧
    (extract raw_html = some "" →
      (extract_content extract get_text raw_html page).reading_time_seconds =
        page.reading_time_seconds) := by
  unfold extract_content
  refine ⟨?_, ?_, ?_⟩
  · intro s hs hne
    rw [hs]
    simp only [hne, if_true, ne_eq, not_false_eq_true]
    split_ifs <;> simp
  · intro hnone
    rw [hnone]
    split_ifs <;> simp
  · intro hempty
    rw [hempty]
    simp only [ne_eq, not_true_eq_false, if_false]
    split_ifs <;> simp

section PyRoundConcrete

variable {α : Type} [LinearOrderedField α] [FloorRing α] [DecidableEq α]

/-- Evaluate `pyRound` on a value in `[n, n + 1/2)`. -/
theorem pyRound_eq_of_lt_half {x : α} {n : ℤ} (h1 : (n : α) ≤ x) (h2 : x < (n : α) + 1 / 2) :
    pyRound x = n := by
  have hfl : ⌊x⌋ = n := Int.floor_eq_iff.mpr ⟨h1, by push_cast; linarith⟩
  unfold pyRound
  rw [if_neg, round_eq]
  · exact Int.floor_eq_iff.mpr ⟨by push_cast; linarith, by push_cast; linarith⟩
  · rw [Int.fract, hfl]
    intro hc
    have : x = (n : α) + 1 / 2 := by linarith [sub_eq_iff_eq_add.mp hc]
    linarith
  
theorem pyRound_eq_of_gt_half {x : α} {n : ℤ} (h1 : (n : α) + 1 / 2 < x) (h2 : x ≤ (n : α) + 1) :
    pyRound x = n + 1 := by
  unfold pyRound
  rw [if_neg, round_eq]
  · refine Int.floor_eq_iff.mpr ⟨by push_cast; linarith, by push_cast; linarith⟩
  · intro hc
    have hx : x = (⌊x⌋ : α) + 1 / 2 := by
      have h := Int.floor_add_fract x
      rw [hc] at h
      linarith
    have hlow : (n : α) < (⌊x⌋ : α) := by linarith
    have hlow' : n < ⌊x⌋ := by exact_mod_cast hlow
    have : ((n + 1 : ℤ) : α) ≤ (⌊x⌋ : α) := by exact_mod_cast hlow'
    push_cast at this
    linarith

end PyRoundConcrete

/-- Witness for C4: the amended reading-time law applied to extraction oracles
returning six words and returning `None`. -/
theorem extract_content_reading_time_witness :
    (extract_content (fun _ => some "w1 w2 w3 w4 w5 w6") (fun _ => "") "<p>x</p>"
        ({} : AnalyzedPage)).reading_time_seconds =
      max 1 ((extract_content (fun _ => some "w1 w2 w3 w4 w5 w6") (fun _ => "") "<p>x</p>"
        ({} : AnalyzedPage)).word_count * 60 / 225) ∧
    (extract_content (fun _ => none) (fun _ => "") "<p>x</p>"
        ({} : AnalyzedPage)).reading_time_seconds = ({} : AnalyzedPage).reading_time_seconds :=
  ⟨((extract_content_reading_time (fun _ => some "w1 w2 w3 w4 w5 w6") (fun _ => "") "<p>x</p>"
      ({} : AnalyzedPage)).1 "w1 w2 w3 w4 w5 w6" rfl (by decide)).1,
   (extract_content_reading_time (fun _ => none) (fun _ => "") "<p>x</p>"
      ({} : AnalyzedPage)).2.1 rfl⟩

/-- Counterexample to C4 as stated: with non-extractable HTML
(`trafilatura.extract` returns `None`) the code leaves
`reading_time_seconds = 0` while the claimed formula
`max(1, round(word_count/225·60))` gives 1; and at `word_count = 6` the code
computes `max(1, int(1.6)) = 1` while the claimed formula with `round` gives
2. -/
theorem extract_content_reading_time_counterexample :
    (extract_content (fun _ => none) (fun _ => "") "<p>x</p>"
        ({} : AnalyzedPage)).reading_time_seconds = 0 ∧
    max (1 : ℤ) (pyRound
      (((extract_content (fun _ => none) (fun _ => "") "<p>x</p>"
          ({} : AnalyzedPage)).word_count : ℚ) / 225 * 60)) = 1 ∧
    (extract_content (fun _ => some "w1 w2 w3 w4 w5 w6") (fun _ => "") "<p>x</p>"
        ({} : AnalyzedPage)).reading_time_seconds = 1 ∧
    max (1 : ℤ) (pyRound
      (((extract_content (fun _ => some "w1 w2 w3 w4 w5 w6") (fun _ => "") "<p>x</p>"
          ({} : AnalyzedPage)).word_count : ℚ) / 225 * 60)) = 2 := by
  refine ⟨rfl, ?_, by decide, ?_⟩
  · have h1 : (extract_content (fun _ => none) (fun _ => "") "<p>x</p>"
        ({} : AnalyzedPage)).word_count = 0 := rfl
    rw [h1]
    have h2 : ((0 : ℕ) : ℚ) / 225 * 60 = ((0 : ℤ) : ℚ) := by norm_num
    rw [h2, pyRound_intCast]
    norm_num
  · have h1 : (extract_content (fun _ => some "w1 w2 w3 w4 w5 w6") (fun _ => "") "<p>x</p>"
        ({} : AnalyzedPage)).word_count = 6 := by decide
    rw [h1]
    have h2 : ((6 : ℕ) : ℚ) / 225 * 60 = 8 / 5 := by norm_num
    rw [h2]
    have h3 : pyRound ((8 : ℚ) / 5) = 2 := by
      have := pyRound_eq_of_gt_half (x := (8 : ℚ) / 5) (n := 1) (by norm_num) (by norm_num)
      simpa using this
    rw [h3]
    norm_num

/-! ## `SEOAnalyzer.analyze` (analyzer.py lines 129-158)

The eight extraction passes that run on non-empty HTML all require
BeautifulSoup/extruct/trafilatura; they are a single abstract
`pipeline` parameter.  What the embedding pins down exactly is everything
`analyze` does before the `if not crawl_result.html: return page` early
return. -/

def analyze (pipeline : CrawlResult → AnalyzedPage → AnalyzedPage) (cr : CrawlResult) :
    AnalyzedPage :=
  let page : AnalyzedPage :=
    { url := cr.url
      status_code := cr.status_code
      load_time_ms := cr.load_time_ms
      page_size_bytes := cr.page_size_bytes
      is_https := pyStartsWith cr.url "https://"
      headers := cr.headers
      raw_html := cr.html }
  if cr.html = "" then page else pipeline cr page

/-- Claim C10: on empty HTML, `analyze` returns (for every extraction
pipeline) a page with exactly `url`, `status_code`, `load_time_ms`,
`page_size_bytes`, `headers`, `raw_html` and `is_https` copied from the
crawl result — `is_https` true iff the url starts with `"https://"` — and
every other signal at its `AnalyzedPage.__init__` default: `word_count = 0`,
all heading lists empty, empty keyword-frequency map, `total_images = 0`,
`is_indexable = true`. -/
theorem analyze_empty_html (pipeline : CrawlResult → AnalyzedPage → AnalyzedPage)
    (cr : CrawlResult) (h : cr.html = "") :
    (analyze pipeline cr).url = cr.url ∧
    (analyze pipeline cr).status_code = cr.status_code ∧
    (analyze pipeline cr).load_time_ms = cr.load_time_ms ∧
    (analyze pipeline cr).page_size_bytes = cr.page_size_bytes ∧
    (analyze pipeline cr).headers = cr.headers ∧
    (analyze pipeline cr).raw_html = cr.html ∧
    (analyze pipeline cr).is_https = pyStartsWith cr.url "https://" ∧
    (analyze pipeline cr).word_count = 0 ∧
    (analyze pipeline cr).h1_tags = [] ∧
    (analyze pipeline cr).h2_tags = [] ∧
    (analyze pipeline cr).h3_tags = [] ∧
    (analyze pipeline cr).h4_tags = [] ∧
    (analyze pipeline cr).h5_tags = [] ∧
    (analyze pipeline cr).h6_tags = [] ∧
    (analyze pipeline cr).keyword_frequencies = [] ∧
    (analyze pipeline cr).total_images = 0 ∧
    (analyze pipeline cr).is_indexable = true ∧
    (analyze pipeline cr).title = none ∧
    (analyze pipeline cr).meta_description = none ∧
    (analyze pipeline cr).canonical_tag = none ∧
    (analyze pipeline cr).content_text = "" ∧
    (analyze pipeline cr).reading_time_seconds = 0 ∧
    (analyze pipeline cr).text_html_ratio = 0 ∧
    (analyze pipeline cr).internal_links_count = 0 ∧
    (analyze pipeline cr).external_links_count = 0 ∧
    (analyze pipeline cr).has_schema_markup = false ∧
    (analyze pipeline cr).schema_types = [] := by
  unfold analyze
  rw [if_pos h]
  repeat refine ⟨rfl, ?_⟩
  rfl

/-- Witness for C10 at a concrete https crawl result with empty HTML and an
adversarial pipeline (which is never invoked). -/
theorem analyze_empty_html_witness :
    (analyze (fun _ p => { p with word_count := 999 })
        { url := "https://example.com", status_code := 204 }).is_https = true ∧
    (analyze (fun _ p => { p with word_count := 999 })
        { url := "https://example.com", status_code := 204 }).word_count = 0 ∧
    (analyze (fun _ p => { p with word_count := 999 })
        { url := "https://example.com", status_code := 204 }).is_indexable = true :=
  ⟨(analyze_empty_html _ _ rfl).2.2.2.2.2.2.1.trans (by decide),
   (analyze_empty_html _ _ rfl).2.2.2.2.2.2.2.1,
   (analyze_empty_html _ _ rfl).2.2.2.2.2.2.2.2.2.2.2.2.2.2.2.2.1⟩

/-! ## `SEOAnalyzer._compute_keyword_frequencies` (analyzer.py lines 331-366) -/

/-- `STOP_WORDS` (analyzer.py lines 30-41), verbatim. -/
def STOP_WORDS : List String :=
  ["a", "an", "the", "and", "or", "but", "in", "on", "at", "to", "for",
   "of", "with", "by", "from", "up", "about", "into", "through", "during",
   "is", "are", "was", "were", "be", "been", "being", "have", "has", "had",
   "do", "does", "did", "will", "would", "could", "should", "may", "might",
   "shall", "can", "need", "dare", "ought", "used", "it", "its", "this",
   "that", "these", "those", "i", "me", "my", "we", "our", "you", "your",
   "he", "his", "she", "her", "they", "their", "what", "which", "who",
   "when", "where", "why", "how", "all", "each", "every", "both", "few",
   "more", "most", "other", "some", "such", "no", "not", "only", "same",
   "so", "than", "too", "very", "just", "also", "as", "if", "then"]

/-- `re.sub(r"[^a-z0-9\s\-']", " ", text)` character-wise. -/
def cleanChar (c : Char) : Char :=
  if ('a' ≤ c ∧ c ≤ 'z') ∨ ('0' ≤ c ∧ c ≤ '9') ∨ pyIsSpace c ∨ c = '-' ∨ c = '\'' then c
  else ' '

def cleanText (s : String) : String :=
  String.mk (s.toList.map cleanChar)

/-- `text = content_text.lower(); text = re.sub(...); tokens = text.split()`. -/
def tokenizePy (content_text : String) : List String :=
  pySplitWs (cleanText (pyLower content_text))

/-- A `collections.Counter` built by insertion order: first-seen key order,
one count per distinct element. -/
def tally (l : List String) : List (String × ℕ) :=
  l.foldl (fun acc t =>
    if acc.any (fun p => p.1 = t) then
      acc.map (fun p => if p.1 = t then (p.1, p.2 + 1) else p)
    else acc ++ [(t, 1)]) []

/-- Stable insertion for descending-count order (ties keep earlier-seen
elements first, as `Counter.most_common` does). -/
def insertDesc (x : String × ℕ) : List (String × ℕ) → List (String × ℕ)
  | [] => [x]
  | y :: ys => if y.2 ≤ x.2 then x :: y :: ys else y :: insertDesc x ys

def sortCountDesc (l : List (String × ℕ)) : List (String × ℕ) :=
  l.foldr insertDesc []

/-- `Counter.most_common(n)`: stable sort by count descending, first `n`. -/
def most_common (n : ℕ) (l : List (String × ℕ)) : List (String × ℕ) :=
  (sortCountDesc l).take n

/-- One Python-dict write `d[k] = v`: overwrite in place or append. -/
def dictWrite (m : List (String × ℕ)) (kv : String × ℕ) : List (String × ℕ) :=
  if m.any (fun p => p.1 = kv.1) then
    m.map (fun p => if p.1 = kv.1 then (p.1, kv.2) else p)
  else m ++ [kv]

/-- The combination step of `_compute_keyword_frequencies`: count unigrams
and bigrams of the meaningful-token list, then write the top 150 unigrams
followed by those of the top 50 bigrams with count ≥ 2 into a fresh dict. -/
def combineTopKeywords (toks : List String) : List (String × ℕ) :=
  let unigram_counts := tally toks
  let bigrams := (toks.zip toks.tail).map (fun p => p.1 ++ " " ++ p.2)
  let bigram_counts := tally bigrams
  let combined := (most_common 150 unigram_counts).foldl dictWrite []
  ((most_common 50 bigram_counts).filter (fun p => 2 ≤ p.2)).foldl dictWrite combined

/-- `_compute_keyword_frequencies` exactly as coded: the meaningful tokens
are `[t.strip("'-") for t in tokens if len(t) > 2 and t not in STOP_WORDS
and t.strip("'-")]` — the length/stop-word tests run on the raw token,
the strip happens afterwards. -/
def compute_keyword_frequencies (content_text : String) : List (String × ℕ) :=
  if content_text = "" then []
  else
    combineTopKeywords ((tokenizePy content_text).filterMap (fun t =>
      if 2 < t.length ∧ t ∉ STOP_WORDS ∧ pyStripQuotesHyphens t ≠ "" then
        some (pyStripQuotesHyphens t)
      else none))

/-- The pipeline in the order the claim states it: strip each token first,
then drop stripped tokens of length ≤ 2 or in the stop-word set. -/
def claim_keyword_frequencies (content_text : String) : List (String × ℕ) :=
  if content_text = "" then []
  else
    combineTopKeywords (((tokenizePy content_text).map pyStripQuotesHyphens).filter
      (fun t => !(decide (t.length ≤ 2 ∨ t ∈ STOP_WORDS))))

/-- The amended claim's pipeline: drop raw tokens of length ≤ 2 or in the
stop-word set, then strip each survivor, then drop tokens that stripped to
the empty string. -/
def amended_keyword_frequencies (content_text : String) : List (String × ℕ) :=
  if content_text = "" then []
  else
    combineTopKeywords ((((tokenizePy content_text).filter
      (fun t => !(decide (t.length ≤ 2 ∨ t ∈ STOP_WORDS)))).map pyStripQuotesHyphens).filter
      (fun t => t ≠ ""))

theorem meaningful_tokens_eq (l : List String) :
    (l.filterMap (fun t =>
      if 2 < t.length ∧ t ∉ STOP_WORDS ∧ pyStripQuotesHyphens t ≠ "" then
        some (pyStripQuotesHyphens t)
      else none)) =
    (((l.filter (fun t => !(decide (t.length ≤ 2 ∨ t ∈ STOP_WORDS)))).map
      pyStripQuotesHyphens).filter (fun t => t ≠ "")) := by
  induction l with
  | nil => rfl
  | cons t ts ih =>
    simp only [List.filterMap_cons, List.filter_cons]
    by_cases h1 : t.length ≤ 2 ∨ t ∈ STOP_WORDS
    · rw [if_neg (by
        rintro ⟨ha, hb, _⟩
        rcases h1 with h | h
        · omega
        · exact hb h)]
      simp [h1, ih]
    · have h1' : ¬(t.length ≤ 2 ∨ t ∈ STOP_WORDS) := h1
      push_neg at h1
      by_cases h2 : pyStripQuotesHyphens t = ""
      · rw [if_neg (by rintro ⟨_, _, hc⟩; exact hc h2)]
        simp [h1', h2, ih]
      · rw [if_pos ⟨h1.1, h1.2, h2⟩]
        simp [h1', h2, ih]

/-- Claim C5 (amended): the keyword-frequency map is computed from
lowercased content with every character outside `[a-z0-9\s\-']` replaced by
a space, split on whitespace; the length ≤ 2 and stop-word tests are applied
to the RAW token (before stripping `'-`), then each surviving token is
stripped, dropping any that strip to the empty string; the map is the top
150 unigrams plus the top 50 bigrams with count ≥ 2 over that sequence, and
empty content yields an empty map. -/
theorem compute_keyword_frequencies_amended (content_text : String) :
    compute_keyword_frequencies content_text = amended_keyword_frequencies content_text := by
  unfold compute_keyword_frequencies amended_keyword_frequencies
  split_ifs with h
  · rfl
  · exact congrArg combineTopKeywords (meaningful_tokens_eq _)

/-- Counterexample to C5 as stated: on `"-it -it -it"` the code keeps each
raw token `-it` (length 3, not a stop word) and strips it to `it`, producing
`{it: 3, "it it": 2}`; the claim's strip-first pipeline would discard `it`
(length 2 and a stop word) and produce the empty map. -/
theorem compute_keyword_frequencies_counterexample :
    compute_keyword_frequencies "-it -it -it" = [("it", 3), ("it it", 2)] ∧
    claim_keyword_frequencies "-it -it -it" = [] ∧
    compute_keyword_frequencies "-it -it -it" ≠ claim_keyword_frequencies "-it -it -it" := by
  refine ⟨by decide, by decide, by decide⟩

/-! ## The sitemap parser (`backend/crawler/sitemap.py`)

BeautifulSoup's view of a sitemap document is abstracted to the two tag
lists `_parse_xml` inspects: the `<sitemap>` children of a sitemap index and
the `<url>` children of a url-set, each carrying `some text` when it has a
`<loc>` with truthy text (already `.strip()`ed) and `none` otherwise.
Fetching (`http_client.get` + gzip handling) is an oracle
`String → Option XmlDoc`, `none` covering non-200 responses and exceptions. -/

structure XmlDoc where
  sitemapTags : List (Option String) := []
  urlTags : List (Option String) := []
  deriving DecidableEq

/-- `SitemapParser._parse_xml` (sitemap.py lines 89-112): if the document has
any `<sitemap>` children it returns their `<loc>` texts — the sub-sitemap
URLs themselves — otherwise the `<url><loc>` texts. -/
def parse_xml (doc : XmlDoc) : List String :=
  if doc.sitemapTags ≠ [] then
    doc.sitemapTags.filterMap (fun loc => match loc with
      | some s => if s ≠ "" then some s else none
      | none => none)
  else
    doc.urlTags.filterMap (fun loc => match loc with
      | some s => if s ≠ "" then some s else none
      | none => none)

/-- `SitemapParser._parse_sitemap` (sitemap.py lines 66-87): skip already
processed URLs, mark processed, fetch, parse; failures yield `[]`. -/
def parse_sitemap (fetchDoc : String → Option XmlDoc) (processed : List String)
    (sitemap_url : String) : List String × List String :=
  if sitemap_url ∈ processed then ([], processed)
  else
    match fetchDoc sitemap_url with
    | none => ([], sitemap_url :: processed)
    | some doc => (parse_xml doc, sitemap_url :: processed)

/-- `SitemapParser.fetch_all` (sitemap.py lines 38-47) given the discovered
sitemap URLs: concatenate each parse, then `list(set(...))` (modelled as
first-occurrence dedup; all statements about it are membership
statements). -/
def fetch_all (fetchDoc : String → Option XmlDoc) (discovered : List String) : List String :=
  (discovered.foldl (fun (acc : List String × List String) u =>
    let r := parse_sitemap fetchDoc acc.2 u
    (acc.1 ++ r.1, r.2)) ([], [])).1.dedup

/-- The claim's description of sitemap-index handling, modelled from its
words: each `<loc>` of a `<sitemap>` child is itself fetched and parsed as a
url-set (one level of recursion), and the output is the deduplicated union
of those url-sets. -/
def fetch_all_claimed (fetchDoc : String → Option XmlDoc) (discovered : List String) :
    List String :=
  (discovered.flatMap (fun u =>
    match fetchDoc u with
    | none => []
    | some doc =>
      if doc.sitemapTags ≠ [] then
        (doc.sitemapTags.filterMap (fun loc => match loc with
          | some s => if s ≠ "" then some s else none
          | none => none)).flatMap (fun child =>
            match fetchDoc child with
            | none => []
            | some d2 => d2.urlTags.filterMap (fun loc => match loc with
              | some s => if s ≠ "" then some s else none
              | none => none))
      else
        doc.urlTags.filterMap (fun loc => match loc with
          | some s => if s ≠ "" then some s else none
          | none => none))).dedup

/-- A one-index, one-child universe for the counterexample: `"i"` is a
sitemap index pointing at `"a"`, which is a url-set of two pages. -/
def sitemapOracle : String → Option XmlDoc := fun u =>
  if u = "i" then some { sitemapTags := [some "a"] }
  else if u = "a" then some { urlTags := [some "p1", some "p2"] }
  else none

/-- Counterexample to C2 as stated: for the depth-1 sitemap index `"i"`, the
parser returns the child sitemap URL `"a"` itself as a page URL; it never
fetches `"a"`, so the url-set entries `p1`, `p2` the claim promises are
absent. -/
theorem fetch_all_counterexample :
    fetch_all sitemapOracle ["i"] = ["a"] ∧
    fetch_all_claimed sitemapOracle ["i"] = ["p1", "p2"] ∧
    "p1" ∈ fetch_all_claimed sitemapOracle ["i"] ∧
    "p1" ∉ fetch_all sitemapOracle ["i"] := by
  refine ⟨by decide, by decide, by decide, by decide⟩

/-- Claim C2 (amended): for a discovered sitemap-index document, `fetch_all`
returns exactly the (truthy, deduplicated) `<loc>` entries of the index's
`<sitemap>` children themselves — the referenced sitemaps are not fetched,
i.e. there is no recursion into them. -/
theorem fetch_all_index_returns_child_locs (fetchDoc : String → Option XmlDoc)
    (u : String) (doc : XmlDoc) (hfetch : fetchDoc u = some doc)
    (hindex : doc.sitemapTags ≠ []) :
    ∀ x, x ∈ fetch_all fetchDoc [u] ↔
      x ∈ doc.sitemapTags.filterMap (fun loc => match loc with
        | some s => if s ≠ "" then some s else none
        | none => none) := by
  intro x
  unfold fetch_all
  simp only [List.foldl_cons, List.foldl_nil]
  unfold parse_sitemap
  rw [if_neg (List.not_mem_nil u), hfetch]
  dsimp only
  unfold parse_xml
  rw [if_pos hindex]
  simp [List.mem_dedup]

/-- Witness for C2's amended theorem on the concrete one-index universe. -/
theorem fetch_all_index_returns_child_locs_witness :
    "a" ∈ fetch_all sitemapOracle ["i"] ↔
      "a" ∈ (XmlDoc.sitemapTags { sitemapTags := [some "a"] }).filterMap
        (fun loc => match loc with
          | some s => if s ≠ "" then some s else none
          | none => none) :=
  fetch_all_index_returns_child_locs sitemapOracle "i" { sitemapTags := [some "a"] }
    (by decide) (by decide) "a"

/-! ## The robots.txt checker (`backend/crawler/robots.py`)

`RobotExclusionRulesParser` is abstracted as an oracle
`parse : String → String → Bool` mapping the fetched robots.txt body to an
is-allowed predicate on URLs (the user agent is the fixed
`settings.CRAWLER_USER_AGENT`); `float(...)` parsing of a crawl-delay value
is the oracle `parseFloat : String → Option ℚ`.  The HTTP fetch outcome is
a value of `HttpResp`. -/

inductive HttpResp where
  | resp (status : ℤ) (body : String)
  | err
  deriving DecidableEq

structure RobotsState where
  parserRules : Option (String → Bool) := none
  crawl_delay : ℚ := 0
  raw_content : Option String := none
  fetched : Bool := false

/-- `str.splitlines()` restricted to `\n` separators.  Unlike Python this
keeps a final empty segment after a trailing newline; no such segment can
start with `crawl-delay:` or `sitemap:`, the only two tests applied to
lines. -/
def pyLines (s : String) : List String :=
  (s.toList.foldr (fun c (acc : List (List Char)) =>
    match acc with
    | [] => [[c]]
    | l :: ls => if c = '\n' then [] :: l :: ls else (c :: l) :: ls) [[]]).map String.mk

/-- `line.split(":", 1)[1]`: everything after the first colon. -/
def afterFirstColon : List Char → List Char
  | [] => []
  | c :: cs => if c = ':' then cs else afterFirstColon cs

/-- `str.strip()` on ASCII whitespace. -/
def pyStripWs (s : String) : String :=
  String.mk (((s.toList.dropWhile (fun c => pyIsSpace c)).reverse.dropWhile
    (fun c => pyIsSpace c)).reverse)

/-- The crawl-delay scan inside `RobotsChecker.fetch` (robots.py lines
36-42): for every line starting (lowercased) with `crawl-delay:` whose value
parses as a float, set `crawl_delay = max(0.0, delay)`; parse failures keep
the previous value. -/
def extract_crawl_delay (parseFloat : String → Option ℚ) (start : ℚ) (content : String) : ℚ :=
  (pyLines content).foldl (fun acc line =>
    if pyStartsWith (pyLower line) "crawl-delay:" then
      match parseFloat (pyStripWs (String.mk (afterFirstColon line.toList))) with
      | some delay => max 0 delay
      | none => acc
    else acc) start

/-- `RobotsChecker.fetch` (robots.py lines 26-49): on a 200 response store
the body, build the parser and scan for crawl-delay; on any other status or
a raised exception change nothing; in every case set `_fetched = True`. -/
def robots_fetch (parse : String → String → Bool) (parseFloat : String → Option ℚ)
    (response : HttpResp) (s : RobotsState) : RobotsState :=
  match response with
  | .resp status body =>
    if status = 200 then
      { s with
        raw_content := some body
        parserRules := some (parse body)
        crawl_delay := extract_crawl_delay parseFloat s.crawl_delay body
        fetched := true }
    else { s with fetched := true }
  | .err => { s with fetched := true }

/-- `RobotsChecker.is_allowed` (robots.py lines 51-58): allow when not yet
fetched or no parser; otherwise ask the parser. -/
def is_allowed (s : RobotsState) (url : String) : Bool :=
  if s.fetched = false then true
  else
    match s.parserRules with
    | none => true
    | some p => p url

/-- `RobotsChecker.get_sitemaps` (robots.py lines 60-68). -/
def get_sitemaps (s : RobotsState) : List String :=
  match s.raw_content with
  | none => []
  | some content =>
    ((pyLines content).filter (fun line => pyStartsWith (pyLower line) "sitemap:")).map
      (fun line => pyStripWs (String.mk (afterFirstColon line.toList)))

/-- Claim C7: if the robots.txt fetch returns any non-200 status or raises,
the resulting policy (from the freshly constructed checker, robots.py lines
18-24) allows every URL, reports no sitemaps, and reports a crawl-delay of
0; `_fetched` is set so the job never re-fetches. -/
theorem robots_failure_allows_all (parse : String → String → Bool)
    (parseFloat : String → Option ℚ) (response : HttpResp)
    (hfail : ∀ status body, response = .resp status body → status ≠ 200) :
    (∀ url, is_allowed (robots_fetch parse parseFloat response {}) url = true) ∧
    get_sitemaps (robots_fetch parse parseFloat response {}) = [] ∧
    (robots_fetch parse parseFloat response {}).crawl_delay = 0 ∧
    (robots_fetch parse parseFloat response {}).fetched = true := by
  have hstate : robots_fetch parse parseFloat response {} =
      { parserRules := none, crawl_delay := 0, raw_content := none, fetched := true } := by
    match response with
    | .err => rfl
    | .resp status body =>
      have hne : status ≠ 200 := hfail status body rfl
      unfold robots_fetch
      dsimp only
      rw [if_neg hne]
  rw [hstate]
  exact ⟨fun url => rfl, rfl, rfl, rfl⟩

/-- Witness for C7 at a concrete 404 response and an adversarial parser that
would deny everything had it been built. -/
theorem robots_failure_allows_all_witness :
    is_allowed (robots_fetch (fun _ _ => false) (fun _ => none) (.resp 404 "x") {})
      "https://example.com/page" = true ∧
    get_sitemaps (robots_fetch (fun _ _ => false) (fun _ => none) (.resp 404 "x") {}) = [] ∧
    (robots_fetch (fun _ _ => false) (fun _ => none) (.resp 404 "x") {}).crawl_delay = 0 :=
  ⟨(robots_failure_allows_all (fun _ _ => false) (fun _ => none) (.resp 404 "x")
      (fun status body h => by cases h; decide)).1 "https://example.com/page",
   (robots_failure_allows_all (fun _ _ => false) (fun _ => none) (.resp 404 "x")
      (fun status body h => by cases h; decide)).2.1,
   (robots_failure_allows_all (fun _ _ => false) (fun _ => none) (.resp 404 "x")
      (fun status body h => by cases h; decide)).2.2.1⟩

/-! ## The per-domain rate limiter (`backend/crawler/rate_limiter.py`)

`DomainRateLimiter.acquire` runs, under the per-domain lock (so calls for
one domain are serialized),

    now = time.monotonic(); last = self._last_request[domain]
    wait_time = self.min_interval - (now - last)
    if wait_time > 0: await asyncio.sleep(wait_time)
    self._last_request[domain] = time.monotonic()

The cooperative temporal model: one call is an observation
`(domain, now, t2)` — `now` the first `time.monotonic()` reading, `t2` the
second (recorded) one.  `ValidCall` captures exactly what the runtime
guarantees: the monotonic clock does not run backwards (`last ≤ now`) and
`asyncio.sleep` never wakes early (`now + max 0 wait_time ≤ t2`).  The
`_last_request` table starts at `defaultdict(float)`, i.e. all zeros. -/

noncomputable def min_interval (rate_per_second : ℝ) : ℝ := 1 / rate_per_second

noncomputable def wait_time (rate_per_second last now : ℝ) : ℝ :=
  min_interval rate_per_second - (now - last)

/-- The state update of one `acquire`: record the second clock reading. -/
def acquire_update (last : String → ℝ) (domain : String) (t2 : ℝ) : String → ℝ :=
  Function.update last domain t2

/-- What the runtime guarantees about one observed `acquire` call. -/
def ValidCall (rate_per_second : ℝ) (last : String → ℝ) (c : String × ℝ × ℝ) : Prop :=
  last c.1 ≤ c.2.1 ∧
  c.2.1 + max 0 (wait_time rate_per_second (last c.1) c.2.1) ≤ c.2.2

/-- A sequence of acquire calls, each valid for the state its predecessors
left behind. -/
inductive ValidTrace (rate_per_second : ℝ) : (String → ℝ) → List (String × ℝ × ℝ) → Prop
  | nil (last : String → ℝ) : ValidTrace rate_per_second last []
  | cons (last : String → ℝ) (c : String × ℝ × ℝ) (cs : List (String × ℝ × ℝ))
      (hc : ValidCall rate_per_second last c)
      (hcs : ValidTrace rate_per_second (acquire_update last c.1 c.2.2) cs) :
      ValidTrace rate_per_second last (c :: cs)

/-- Fold a trace of acquire calls through the limiter state. -/
def run_acquires (rate_per_second : ℝ) (last : String → ℝ) :
    List (String × ℝ × ℝ) → (String → ℝ)
  | [] => last
  | c :: cs => run_acquires rate_per_second (acquire_update last c.1 c.2.2) cs

/-- The completion (second, recorded) timestamps of the calls for host `h`. -/
def completions (h : String) (trace : List (String × ℝ × ℝ)) : List ℝ :=
  (trace.filter (fun c => c.1 = h)).map (fun c => c.2.2)

theorem validCall_gap {rate_per_second : ℝ} {last : String → ℝ} {c : String × ℝ × ℝ}
    (hc : ValidCall rate_per_second last c) :
    last c.1 + 1 / rate_per_second ≤ c.2.2 := by
  obtain ⟨h1, h2⟩ := hc
  have h3 : wait_time rate_per_second (last c.1) c.2.1 ≤
      max 0 (wait_time rate_per_second (last c.1) c.2.1) := le_max_right _ _
  unfold wait_time min_interval at h2 h3
  linarith

theorem run_acquires_untouched (rate_per_second : ℝ) :
    ∀ (trace : List (String × ℝ × ℝ)) (last : String → ℝ) (h' : String),
      (∀ c ∈ trace, c.1 ≠ h') → run_acquires rate_per_second last trace h' = last h' := by
  intro trace
  induction trace with
  | nil => intro last h' _; rfl
  | cons c cs ih =>
    intro last h' hne
    have h1 : run_acquires rate_per_second last (c :: cs) =
        run_acquires rate_per_second (acquire_update last c.1 c.2.2) cs := rfl
    rw [h1, ih _ _ (fun d hd => hne d (List.mem_cons_of_mem c hd))]
    unfold acquire_update
    exact Function.update_noteq (fun hgc => hne c (List.mem_cons_self c cs) hgc.symm) _ _

theorem chain_gap_aux (rate_per_second : ℝ) :
    ∀ (trace : List (String × ℝ × ℝ)) (last : String → ℝ),
      ValidTrace rate_per_second last trace → ∀ g,
      List.Chain' (fun a b => a + 1 / rate_per_second ≤ b) (last g :: completions g trace) := by
  intro trace
  induction trace with
  | nil =>
    intro last _ g
    exact List.chain'_singleton _
  | cons c cs ih =>
    intro last hv g
    cases hv with
    | cons _ _ _ hc hcs =>
      by_cases hcg : c.1 = g
      · subst hcg
        have hcomp : completions c.1 (c :: cs) = c.2.2 :: completions c.1 cs := by
          unfold completions
          simp [List.filter_cons]
        rw [hcomp, List.chain'_cons]
        refine ⟨validCall_gap hc, ?_⟩
        have h2 := ih (acquire_update last c.1 c.2.2) hcs c.1
        rwa [show acquire_update last c.1 c.2.2 c.1 = c.2.2 by
          unfold acquire_update; simp] at h2
      · have hcomp : completions g (c :: cs) = completions g cs := by
          unfold completions
          simp [List.filter_cons, hcg]
        rw [hcomp]
        have h2 := ih (acquire_update last c.1 c.2.2) hcs g
        rwa [show acquire_update last c.1 c.2.2 g = last g by
          unfold acquire_update
          exact Function.update_noteq (fun hgc => hcg hgc.symm) _ _] at h2

/-- Claim C8: under sequential invocation (each call starts after the
previous one completed, the monotonic clock never runs backwards, and
`asyncio.sleep` never wakes early), the recorded completion timestamps of
`acquire(h)` — seeded with the stored `last(h)` — are spaced by at least
`1/rate` and are monotonically non-decreasing, and a call never touches the
stored timestamp of any other host. -/
theorem acquire_spacing (rate_per_second : ℝ) (hrate : 0 < rate_per_second)
    (last : String → ℝ) (trace : List (String × ℝ × ℝ))
    (hvalid : ValidTrace rate_per_second last trace) (h : String) :
    List.Chain' (fun a b => a + 1 / rate_per_second ≤ b) (last h :: completions h trace) ∧
    List.Chain' (fun a b => a ≤ b) (last h :: completions h trace) ∧
    (∀ h', (∀ c ∈ trace, c.1 ≠ h') →
      run_acquires rate_per_second last trace h' = last h') := by
  have hchain := chain_gap_aux rate_per_second trace last hvalid h
  refine ⟨hchain, ?_, fun h' hne => run_acquires_untouched rate_per_second trace last h' hne⟩
  refine hchain.imp ?_
  intro a b hab
  have hpos : 0 < 1 / rate_per_second := by positivity
  linarith

/-- Witness for C8: a two-call trace for host `"h"` at rate 2 req/s, with
the second call arriving exactly when the limiter lets it through. -/
theorem acquire_spacing_witness :
    List.Chain' (fun a b => a + 1 / 2 ≤ b)
      ((fun _ => (0 : ℝ)) "h" :: completions "h" [("h", 0, 1 / 2), ("h", 1 / 2, 1)]) ∧
    List.Chain' (fun a b => a ≤ b)
      ((fun _ => (0 : ℝ)) "h" :: completions "h" [("h", 0, 1 / 2), ("h", 1 / 2, 1)]) := by
  have hupd : acquire_update (fun _ => (0 : ℝ)) "h" (1 / 2) "h" = 1 / 2 := by
    unfold acquire_update
    simp
  have hv1 : ValidCall 2 (fun _ => (0 : ℝ)) ("h", 0, 1 / 2) := by
    unfold ValidCall wait_time min_interval
    norm_num [max_def]
  have hv2 : ValidCall 2 (acquire_update (fun _ => (0 : ℝ)) "h" (1 / 2)) ("h", 1 / 2, 1) := by
    unfold ValidCall wait_time min_interval
    rw [hupd]
    norm_num [max_def]
  have hv : ValidTrace 2 (fun _ => (0 : ℝ)) [("h", 0, 1 / 2), ("h", 1 / 2, 1)] :=
    ValidTrace.cons _ _ _ hv1 (ValidTrace.cons _ _ _ hv2 (ValidTrace.nil _))
  have h := acquire_spacing 2 (by norm_num) (fun _ => (0 : ℝ))
    [("h", 0, 1 / 2), ("h", 1 / 2, 1)] hv "h"
  exact ⟨h.1, h.2.1⟩

/-! ## The main crawl loop (`AsyncCrawler.crawl`, crawler.py lines 318-405)

Fetching a page (`AsyncCrawler._crawl_page`) is abstracted to an oracle
`String → FetchOutcome`: `exc` for an exception surfacing through
`asyncio.gather(..., return_exceptions=True)`, `blocked` for a robots.txt
denial (`_crawl_page` returns `(None, [])`), and `page ok links` for a
`CrawlResult` with `is_success = ok` whose filtered discovered links are
`links` (crawler.py lines 310-314 leave them empty unless the fetch
succeeded with HTML, so links only matter when `ok`).  URL normalization of
a discovered link is the oracle `norm : String → Option String`.  Sets
become lists with explicit membership guards. -/

inductive FetchOutcome where
  | exc
  | blocked
  | page (ok : Bool) (links : List String)
  deriving DecidableEq

structure CrawlState where
  url_queue : List (String × ℕ) := []
  visited_urls : List String := []
  queued_urls : List String := []
  failed_urls : List String := []
  pages_crawled : ℕ := 0
  pages_failed : ℕ := 0
  deriving DecidableEq

/-- The inner batch-forming loop (crawler.py lines 342-348): pop from the
queue until it is empty or the batch holds `max_concurrent` items, skipping
already-visited URLs and marking batch members visited. -/
def form_batch (max_concurrent : ℕ) :
    List (String × ℕ) → List String → List (String × ℕ) →
    List (String × ℕ) × List String × List (String × ℕ)
  | [], visited, batch => (batch, visited, [])
  | (u, d) :: rest, visited, batch =>
    if max_concurrent ≤ batch.length then (batch, visited, (u, d) :: rest)
    else if u ∈ visited then form_batch max_concurrent rest visited batch
    else form_batch max_concurrent rest (u :: visited) (batch ++ [(u, d)])

/-- Enqueuing of discovered links (crawler.py lines 384-389): normalize,
skip seen URLs, append at depth + 1. -/
def enqueue_links (norm : String → Option String) (depth : ℕ) (links : List String)
    (s : CrawlState) : CrawlState :=
  links.foldl (fun st link =>
    match norm link with
    | none => st
    | some n =>
      if n ∉ st.queued_urls ∧ n ∉ st.visited_urls then
        { st with
          url_queue := st.url_queue ++ [(n, depth + 1)]
          queued_urls := n :: st.queued_urls }
      else st) s

/-- Processing one gathered result (crawler.py lines 356-389). -/
def process_result (norm : String → Option String) (max_depth : ℕ) (s : CrawlState)
    (url : String) (depth : ℕ) (outcome : FetchOutcome) : CrawlState :=
  match outcome with
  | .exc =>
    { s with
      failed_urls := if url ∈ s.failed_urls then s.failed_urls else url :: s.failed_urls
      pages_failed := s.pages_failed + 1 }
  | .blocked => s
  | .page ok links =>
    let s1 :=
      if ok then { s with pages_crawled := s.pages_crawled + 1 }
      else
        { s with
          pages_failed := s.pages_failed + 1
          failed_urls := if url ∈ s.failed_urls then s.failed_urls else url :: s.failed_urls }
    if depth < max_depth then enqueue_links norm depth (if ok then links else []) s1 else s1

def process_batch (oracle : String → FetchOutcome) (norm : String → Option String)
    (max_depth : ℕ) (batch : List (String × ℕ)) (s : CrawlState) : CrawlState :=
  batch.foldl (fun st ud => process_result norm max_depth st ud.1 ud.2 (oracle ud.1)) s

/-- The outer BFS loop (crawler.py lines 341-395), fuel-indexed: while the
queue is non-empty and `pages_crawled < max_pages`, form a batch, stop if it
is empty, otherwise process it and loop. -/
def crawl_loop (oracle : String → FetchOutcome) (norm : String → Option String)
    (max_pages max_concurrent max_depth : ℕ) : ℕ → CrawlState → CrawlState
  | 0, s => s
  | fuel + 1, s =>
    if s.url_queue ≠ [] ∧ s.pages_crawled < max_pages then
      match form_batch max_concurrent s.url_queue s.visited_urls [] with
      | (batch, visited2, rest) =>
        if batch = [] then { s with url_queue := rest, visited_urls := visited2 }
        else
          crawl_loop oracle norm max_pages max_concurrent max_depth fuel
            (process_batch oracle norm max_depth batch
              { s with url_queue := rest, visited_urls := visited2 })
    else s

theorem form_batch_length (max_concurrent : ℕ) :
    ∀ (queue : List (String × ℕ)) (visited : List String) (batch : List (String × ℕ)),
      (form_batch max_concurrent queue visited batch).1.length ≤
        max max_concurrent batch.length := by
  intro queue
  induction queue with
  | nil => intro visited batch; exact le_max_right _ _
  | cons ud rest ih =>
    intro visited batch
    match ud with
    | (u, d) =>
      unfold form_batch
      split_ifs with h1 h2
      · exact le_max_right _ _
      · exact ih visited batch
      · have h := ih (u :: visited) (batch ++ [(u, d)])
        have hlen : (batch ++ [(u, d)]).length = batch.length + 1 := by
          simp
        rw [hlen] at h
        have hble : batch.length + 1 ≤ max_concurrent := Nat.succ_le_of_lt (Nat.lt_of_not_le h1)
        calc (form_batch max_concurrent rest (u :: visited) (batch ++ [(u, d)])).1.length
            ≤ max max_concurrent (batch.length + 1) := h
          _ = max_concurrent := Nat.max_eq_left hble
          _ ≤ max max_concurrent batch.length := le_max_left _ _

theorem enqueue_links_pages_crawled (norm : String → Option String) (depth : ℕ) :
    ∀ (links : List String) (s : CrawlState),
      (enqueue_links norm depth links s).pages_crawled = s.pages_crawled := by
  intro links
  induction links with
  | nil => intro s; rfl
  | cons l ls ih =>
    intro s
    unfold enqueue_links
    rw [List.foldl_cons]
    match hn : norm l with
    | none =>
      exact ih s
    | some n =>
      dsimp only
      split_ifs with hmem
      · exact ih _
      · exact ih s

theorem process_result_pages_crawled_le (norm : String → Option String) (max_depth : ℕ)
    (s : CrawlState) (url : String) (depth : ℕ) (outcome : FetchOutcome) :
    (process_result norm max_depth s url depth outcome).pages_crawled ≤ s.pages_crawled + 1 := by
  match outcome with
  | .exc => exact Nat.le_succ _
  | .blocked => exact Nat.le_succ _
  | .page ok links =>
    unfold process_result
    dsimp only
    split_ifs <;> simp [enqueue_links_pages_crawled] <;> omega

theorem process_batch_pages_crawled_le (oracle : String → FetchOutcome)
    (norm : String → Option String) (max_depth : ℕ) :
    ∀ (batch : List (String × ℕ)) (s : CrawlState),
      (process_batch oracle norm max_depth batch s).pages_crawled ≤
        s.pages_crawled + batch.length := by
  intro batch
  induction batch with
  | nil => intro s; exact le_refl _
  | cons ud uds ih =>
    intro s
    unfold process_batch
    rw [List.foldl_cons]
    have h1 := ih (process_result norm max_depth s ud.1 ud.2 (oracle ud.1))
    have h2 := process_result_pages_crawled_le norm max_depth s ud.1 ud.2 (oracle ud.1)
    unfold process_batch at h1
    calc (uds.foldl (fun st ud => process_result norm max_depth st ud.1 ud.2 (oracle ud.1))
          (process_result norm max_depth s ud.1 ud.2 (oracle ud.1))).pages_crawled
        ≤ (process_result norm max_depth s ud.1 ud.2 (oracle ud.1)).pages_crawled + uds.length := h1
      _ ≤ s.pages_crawled + 1 + uds.length := by omega
      _ = s.pages_crawled + (ud :: uds).length := by
          simp only [List.length_cons]
          omega

theorem crawl_loop_pages_crawled_le (oracle : String → FetchOutcome)
    (norm : String → Option String) (max_pages max_concurrent max_depth : ℕ) :
    ∀ (fuel : ℕ) (s : CrawlState),
      (crawl_loop oracle norm max_pages max_concurrent max_depth fuel s).pages_crawled ≤
        max s.pages_crawled (max_pages - 1 + max_concurrent) := by
  intro fuel
  induction fuel with
  | zero => intro s; exact le_max_left _ _
  | succ n ih =>
    intro s
    unfold crawl_loop
    by_cases hcond : s.url_queue ≠ [] ∧ s.pages_crawled < max_pages
    · rw [if_pos hcond]
      match hfb : form_batch max_concurrent s.url_queue s.visited_urls [] with
      | (batch, visited2, rest) =>
        dsimp only
        by_cases hb : batch = []
        · rw [if_pos hb]
          exact le_max_left _ _
        · rw [if_neg hb]
          have hblen : batch.length ≤ max_concurrent := by
            have h := form_batch_length max_concurrent s.url_queue s.visited_urls []
            rw [hfb] at h
            simpa using h
          have hproc := process_batch_pages_crawled_le oracle norm max_depth batch
            { s with url_queue := rest, visited_urls := visited2 }
          have hrec := ih (process_batch oracle norm max_depth batch
            { s with url_queue := rest, visited_urls := visited2 })
          have hbound : (process_batch oracle norm max_depth batch
              { s with url_queue := rest, visited_urls := visited2 }).pages_crawled ≤
              max_pages - 1 + max_concurrent := by
            have hlt : s.pages_crawled ≤ max_pages - 1 := by omega
            calc (process_batch oracle norm max_depth batch
                { s with url_queue := rest, visited_urls := visited2 }).pages_crawled
                ≤ s.pages_crawled + batch.length := hproc
              _ ≤ max_pages - 1 + max_concurrent := by omega
          calc (crawl_loop oracle norm max_pages max_concurrent max_depth n
                (process_batch oracle norm max_depth batch
                  { s with url_queue := rest, visited_urls := visited2 })).pages_crawled
              ≤ max (process_batch oracle norm max_depth batch
                  { s with url_queue := rest, visited_urls := visited2 }).pages_crawled
                  (max_pages - 1 + max_concurrent) := hrec
            _ ≤ max_pages - 1 + max_concurrent := by omega
            _ ≤ max s.pages_crawled (max_pages - 1 + max_concurrent) := le_max_right _ _
    · rw [if_neg hcond]
      exact le_max_left _ _

/-- Claim C3 (amended): over every run — any queue contents, batch size and
fetch outcomes — the final `pages_crawled` is bounded by
`max_pages + max_concurrent` (the loop only re-checks the cap between
batches, so it can overshoot by up to one batch); `pages_failed` is NOT
bounded by `max_pages` at all, because failures never count toward the
cutoff. -/
theorem crawl_loop_crawled_bound (oracle : String → FetchOutcome)
    (norm : String → Option String) (max_pages max_concurrent max_depth fuel : ℕ)
    (s : CrawlState) (hs : s.pages_crawled = 0) :
    (crawl_loop oracle norm max_pages max_concurrent max_depth fuel s).pages_crawled ≤
      max_pages + max_concurrent := by
  have h := crawl_loop_pages_crawled_le oracle norm max_pages max_concurrent max_depth fuel s
  rw [hs] at h
  omega

/-- Witness for C3's amended bound on a concrete two-URL run with
`max_pages = 1`, `max_concurrent = 2`. -/
theorem crawl_loop_crawled_bound_witness :
    (crawl_loop (fun _ => FetchOutcome.page true []) (fun u => some u) 1 2 5 3
      { url_queue := [("a", 0), ("b", 0)], queued_urls := ["a", "b"] }).pages_crawled ≤ 1 + 2 :=
  crawl_loop_crawled_bound (fun _ => FetchOutcome.page true []) (fun u => some u) 1 2 5 3
    { url_queue := [("a", 0), ("b", 0)], queued_urls := ["a", "b"] } rfl

/-- Counterexample to C3 as stated: with `max_pages = 1` and
`max_concurrent = 2`, a queue of two URLs that both fetch successfully is
processed as one batch, and the final statistics show `pages_crawled = 2`:
both `pages_crawled ≤ max_pages` and
`pages_crawled + pages_failed ≤ max_pages` are violated. -/
theorem crawl_loop_counterexample :
    (crawl_loop (fun _ => FetchOutcome.page true []) (fun u => some u) 1 2 5 3
      { url_queue := [("a", 0), ("b", 0)], queued_urls := ["a", "b"] }).pages_crawled = 2 ∧
    ¬((crawl_loop (fun _ => FetchOutcome.page true []) (fun u => some u) 1 2 5 3
      { url_queue := [("a", 0), ("b", 0)], queued_urls := ["a", "b"] }).pages_crawled ≤ 1) ∧
    ¬((crawl_loop (fun _ => FetchOutcome.page true []) (fun u => some u) 1 2 5 3
        { url_queue := [("a", 0), ("b", 0)], queued_urls := ["a", "b"] }).pages_crawled +
      (crawl_loop (fun _ => FetchOutcome.page true []) (fun u => some u) 1 2 5 3
        { url_queue := [("a", 0), ("b", 0)], queued_urls := ["a", "b"] }).pages_failed ≤ 1) := by
  refine ⟨by decide, by decide, by decide⟩
